import Mathlib

/-!
# Verification of the arXiv research-paper fetch-and-filter pipeline

Shallow embedding of `src/main.py` of the research-paper-email-automation
repository, together with proofs about the two core components:

* `fetch_arxiv_papers` (lines 10–52): issues an HTTP GET to the arXiv API,
  parses the response body with `feedparser`, and normalizes entries into
  paper dictionaries.  Network-level failures and bad HTTP statuses are
  caught (`requests.exceptions.RequestException`) and turn into a `None`
  return; every other exception propagates out of the function.

* `filter_papers` (lines 54–97): drops papers older than a cutoff
  (`now - window_days` in UTC), scores the survivors by counting the
  configured keywords occurring as substrings of the lowercased
  `title ++ " " ++ summary`, drops papers with score 0, and finally sorts
  by score descending with Python's stable `list.sort`.

Modelling conventions:

* Instants and timedeltas are integers counting microseconds — the
  resolution of Python `datetime`/`timedelta` values — so fractional and
  sub-day `SEARCH_WINDOW_DAYS` windows (`timedelta(days=window_days)`
  rounds to whole microseconds) are represented exactly.
* `dateutil.parser.parse` applied to a published-date string is modelled by
  its outcome `ParseOutcome`: an aware instant, a naive (timezone-less)
  wall-clock instant, or a parse error.  In Python 3, comparing a naive
  `datetime` with the timezone-aware cutoff raises `TypeError`, and an
  unparseable string raises `dateutil.parser.ParserError`; `filter_papers`
  has no handler for either, so both abort the call.  The embedding returns
  these outcomes in `Except`.
* `feedparser.parse` never raises on a malformed body: it returns a feed
  object whose `bozo` flag records the malformation and whose `entries`
  list holds whatever could be salvaged (nothing, for garbage input).  A
  `Feed` value models that parsed object.  Accessing a missing field of an
  entry (`entry.title` when the entry has no title) raises
  `AttributeError`, which `fetch_arxiv_papers` does not catch.
* Python's `k in text` substring test is character-exact, modelled on the
  character lists underlying the strings.
-/

namespace PaperPipeline

/-- Python substring containment `pat in s`, on the underlying characters. -/
def strContains (s pat : String) : Bool :=
  decide (List.IsInfix pat.data s.data)

/-- Outcome of `dateutil.parser.parse` on a published-date string (line 78):
a timezone-aware instant (as a UTC timestamp in microseconds), a naive
instant carrying no timezone, or a parse failure (`ParserError`). -/
inductive ParseOutcome where
  | aware (t : Int)
  | naive (t : Int)
  | unparseable
  deriving DecidableEq

/-- A normalized paper record as built by the Fetcher (lines 40–46); the
published date is carried via the outcome of parsing it (line 78). -/
structure Paper where
  title : String
  authors : List String
  published_date : ParseOutcome
  summary : String
  paper_url : String
  deriving DecidableEq

/-- A paper record after the Filter mutated it with `paper['score'] = score`
(line 92): the same five fields plus the relevance score. -/
structure ScoredPaper where
  title : String
  authors : List String
  published_date : ParseOutcome
  summary : String
  paper_url : String
  score : Nat
  deriving DecidableEq

/-- Uncaught Python exceptions that can escape `filter_papers`:
`TypeError` from comparing a naive datetime with the aware cutoff, and
`ParserError` from `dateutil` on an unparseable date string. -/
inductive PyErr where
  | typeError
  | parserError
  deriving DecidableEq

/-- Python `str.lower()`, per code point (modelled with `Char.toLower`,
which covers the ASCII letters appearing in the configured keywords). -/
def lowerStr (s : String) : String :=
  ⟨s.data.map Char.toLower⟩

/-- Line 85: the text searched for keywords,
`(paper['title'] + " " + paper['summary']).lower()`.  The configured
keyword list (lines 63–64: lowercased, comma-split, stripped, empties
discarded) is an explicit parameter below, per the `FilterConfig`
contract. -/
def text_to_check (p : Paper) : String :=
  lowerStr (p.title ++ " " ++ p.summary)

/-- Line 89: `score = sum(1 for k in keywords if k in text_to_check)`. -/
def score_of (keywords : List String) (text : String) : Nat :=
  (keywords.filter (fun k => strContains text k)).length

/-- Line 92: the record with the score field added (all other fields
unchanged). -/
def mkScored (p : Paper) (s : Nat) : ScoredPaper :=
  ⟨p.title, p.authors, p.published_date, p.summary, p.paper_url, s⟩

/-- The loop of lines 75–93: walk the input in order; parse each paper's
date (aborting the whole call on `ParserError` or on the naive-vs-aware
`TypeError` from line 80); skip papers older than the cutoff; score the
rest and keep those with positive score, in input order. -/
def surviving (keywords : List String) (cutoff : Int) :
    List Paper → Except PyErr (List ScoredPaper)
  | [] => .ok []
  | p :: rest =>
    match p.published_date with
    | .unparseable => .error .parserError
    | .naive _ => .error .typeError
    | .aware t =>
      if t < cutoff then
        surviving keywords cutoff rest
      else
        if 0 < score_of keywords (text_to_check p) then
          (surviving keywords cutoff rest).map
            (fun l => mkScored p (score_of keywords (text_to_check p)) :: l)
        else
          surviving keywords cutoff rest

/-- Insert into a list sorted by score descending, skipping elements of
strictly larger score and stopping before the first element of score ≤ the
inserted one (so an element inserted from further left in the original
list stays before equal-score elements). -/
def insertDesc (x : ScoredPaper) : List ScoredPaper → List ScoredPaper
  | [] => [x]
  | y :: ys => if x.score < y.score then y :: insertDesc x ys else x :: y :: ys

/-- Line 96: `filtered_papers.sort(key=lambda x: x['score'], reverse=True)`.
Python's `list.sort` is a stable sort, and with `reverse=True` equal-score
elements keep their original relative order; the observable behavior is
that of this stable insertion sort by score descending. -/
def sortByScoreDesc : List ScoredPaper → List ScoredPaper
  | [] => []
  | x :: xs => insertDesc x (sortByScoreDesc xs)

/-- Lines 54–97: `filter_papers`.  The configured keyword list, the
current instant and the recency window are explicit parameters in place of
the environment and the system clock; `window` is
`timedelta(days=window_days)` in microseconds, so fractional
`SEARCH_WINDOW_DAYS` values are exact.  Line 69:
`cutoff_date = datetime.now(timezone.utc) - timedelta(days=window_days)`. -/
def filter_papers (keywords : List String) (now window : Int)
    (papers : List Paper) : Except PyErr (List ScoredPaper) :=
  (surviving keywords (now - window) papers).map sortByScoreDesc

/-- An Atom entry as exposed by `feedparser`: each field is present or
absent; accessing an absent field raises `AttributeError`. -/
structure Entry where
  title : Option String
  authors : Option (List String)
  published : Option String
  summary : Option String
  link : Option String
  deriving DecidableEq

/-- The object `feedparser.parse` returns (line 36).  `feedparser` never
raises on malformed input: the `bozo` flag records that the body was not
well-formed feed data, and `entries` holds whatever entries could be
salvaged (none, for garbage input). -/
structure Feed where
  bozo : Bool
  entries : List Entry
  deriving DecidableEq

/-- A paper dictionary as built by the Fetcher loop (lines 40–46), with the
raw published-date string. -/
structure FetchedPaper where
  title : String
  authors : List String
  published_date : String
  summary : String
  paper_url : String
  deriving DecidableEq

/-- The interaction with the network (line 32 plus `raise_for_status` on
line 33): either `requests.get` raised a `RequestException` (DNS failure,
refused connection, timeout), or a response with some HTTP status arrived
and its body was handed to `feedparser.parse`, producing a `Feed`. -/
inductive HttpOutcome where
  | resp (status : Nat) (parsed : Feed)
  | reqError
  deriving DecidableEq

/-- How a call of `fetch_arxiv_papers` can end: a returned list, a returned
`None` (the `except requests.exceptions.RequestException` arm, lines
50–52), or an exception that no handler catches (e.g. `AttributeError`
from a missing entry field). -/
inductive FetchResult where
  | ok (papers : List FetchedPaper)
  | noneResult
  | uncaught
  deriving DecidableEq

/-- Python `s.replace('\n', ' ')` (lines 41 and 44): the pattern is the
single newline character, so each newline becomes one space. -/
def replaceNL (s : String) : String :=
  ⟨s.data.map (fun c => if c = '\n' then ' ' else c)⟩

/-- Lines 40–46: build one paper dictionary from one entry.  `none` models
the `AttributeError` raised when `entry.title`, `entry.authors`,
`entry.published`, `entry.summary` or `entry.link` is absent; newlines in
title and summary are replaced by spaces (lines 41 and 44). -/
def entryToPaper (e : Entry) : Option FetchedPaper :=
  match e.title, e.authors, e.published, e.summary, e.link with
  | some t, some a, some pub, some s, some l =>
    some ⟨replaceNL t, a, pub, replaceNL s, l⟩
  | _, _, _, _, _ => none

/-- The loop of lines 39–46 over `feed.entries`: entries are processed in
order and the first missing field aborts everything (`none`). -/
def entriesToPapers : List Entry → Option (List FetchedPaper)
  | [] => some []
  | e :: rest =>
    match entryToPaper e with
    | none => none
    | some p => (entriesToPapers rest).map (fun ps => p :: ps)

/-- Lines 10–52: `fetch_arxiv_papers`, abstracted over the network
interaction.  `raise_for_status` raises `HTTPError` (a
`RequestException`) exactly for statuses in 400–599, which the handler
turns into `None`; a transport failure likewise becomes `None`; otherwise
the parsed feed's entries are normalized, and a missing entry field
escapes as an uncaught `AttributeError`. -/
def fetch_arxiv_papers (h : HttpOutcome) : FetchResult :=
  match h with
  | .reqError => .noneResult
  | .resp status feed =>
    if 400 ≤ status ∧ status < 600 then
      .noneResult
    else
      match entriesToPapers feed.entries with
      | some ps => .ok ps
      | none => .uncaught

deriving instance DecidableEq for Except

/-! ## Concrete records used to exercise the theorems -/

/-- A paper matching the keyword "a" only (score 1 under keywords
["a", "b"]). -/
def pW : Paper := ⟨"a only", [], .aware 0, "w", "uw"⟩

/-- A paper matching both "a" and "b" (score 2). -/
def pX : Paper := ⟨"a b", [], .aware 0, "x", "ux"⟩

/-- A second paper of score 2, later in feed order. -/
def pY : Paper := ⟨"b a also", [], .aware 0, "y", "uy"⟩

/-- A third paper of score 2, last in feed order. -/
def pZ : Paper := ⟨"a and b", [], .aware 0, "z", "uz"⟩

/-- `pW` with its score attached. -/
def w1 : ScoredPaper := mkScored pW 1

/-- `pX` with its score attached. -/
def x2 : ScoredPaper := mkScored pX 2

/-- `pY` with its score attached. -/
def y2 : ScoredPaper := mkScored pY 2

/-- `pZ` with its score attached. -/
def z2 : ScoredPaper := mkScored pZ 2

/-- A paper whose title and summary both contain "graph" (several times in
the summary). -/
def pGraph : Paper := ⟨"A Graph Paper", [], .aware 0, "graph neural graph nets", "u"⟩

/-! ## Helper lemmas -/

/-- Every record in a successful `surviving` result comes from an input
record with a parseable aware date at or after the cutoff and a positive
score, and is exactly that record with its score attached. -/
theorem mem_of_surviving_ok {keywords : List String} {cutoff : Int} :
    ∀ {papers : List Paper} {srv : List ScoredPaper},
      surviving keywords cutoff papers = Except.ok srv →
      ∀ sp ∈ srv, ∃ p ∈ papers, ∃ t : Int,
        p.published_date = ParseOutcome.aware t ∧ ¬ t < cutoff ∧
        0 < score_of keywords (text_to_check p) ∧
        sp = mkScored p (score_of keywords (text_to_check p)) := by
  intro papers
  induction papers with
  | nil =>
    intro srv h sp hsp
    simp only [surviving] at h
    cases h
    simp at hsp
  | cons p rest ih =>
    intro srv h sp hsp
    cases hpd : p.published_date with
    | unparseable =>
      simp only [surviving, hpd] at h
      exact Except.noConfusion h
    | naive t =>
      simp only [surviving, hpd] at h
      exact Except.noConfusion h
    | aware t =>
      simp only [surviving, hpd] at h
      by_cases hlt : t < cutoff
      · rw [if_pos hlt] at h
        obtain ⟨q, hq, hrest⟩ := ih h sp hsp
        exact ⟨q, List.mem_cons_of_mem p hq, hrest⟩
      · rw [if_neg hlt] at h
        by_cases hsc : 0 < score_of keywords (text_to_check p)
        · rw [if_pos hsc] at h
          cases hs : surviving keywords cutoff rest with
          | error e => rw [hs] at h; simp [Except.map] at h
          | ok l =>
            rw [hs] at h
            simp only [Except.map] at h
            cases h
            rcases List.mem_cons.mp hsp with rfl | hmem
            · exact ⟨p, List.mem_cons_self p rest, t, hpd, hlt, hsc, rfl⟩
            · obtain ⟨q, hq, hrest⟩ := ih hs sp hmem
              exact ⟨q, List.mem_cons_of_mem p hq, hrest⟩
        · rw [if_neg hsc] at h
          obtain ⟨q, hq, hrest⟩ := ih h sp hsp
          exact ⟨q, List.mem_cons_of_mem p hq, hrest⟩

/-- Over an empty keyword list every score is 0, so nothing survives the
loop, provided every date parses as an aware instant. -/
theorem surviving_nil_keywords {cutoff : Int} :
    ∀ {papers : List Paper},
      (∀ p ∈ papers, ∃ t : Int, p.published_date = ParseOutcome.aware t) →
      surviving [] cutoff papers = Except.ok [] := by
  intro papers
  induction papers with
  | nil => intro _; rfl
  | cons p rest ih =>
    intro h
    obtain ⟨t, ht⟩ := h p (List.mem_cons_self p rest)
    have hrest := ih fun q hq => h q (List.mem_cons_of_mem p hq)
    simp only [surviving, ht, score_of, List.filter_nil, List.length_nil,
      Nat.lt_irrefl, if_false, hrest]
    split <;> rfl

/-- `insertDesc` inserts its element somewhere in the list. -/
theorem insertDesc_perm (x : ScoredPaper) (l : List ScoredPaper) :
    List.Perm (insertDesc x l) (x :: l) := by
  induction l with
  | nil => rfl
  | cons y ys ih =>
    rw [insertDesc]
    by_cases hc : x.score < y.score
    · rw [if_pos hc]
      exact (ih.cons y).trans (List.Perm.swap x y ys)
    · rw [if_neg hc]

/-- The sort of line 96 permutes the surviving records. -/
theorem sortByScoreDesc_perm (l : List ScoredPaper) :
    List.Perm (sortByScoreDesc l) l := by
  induction l with
  | nil => rfl
  | cons x xs ih => exact (insertDesc_perm x (sortByScoreDesc xs)).trans (ih.cons x)

/-- Inserting into a list sorted by score descending keeps it sorted. -/
theorem pairwise_insertDesc {x : ScoredPaper} {l : List ScoredPaper}
    (h : l.Pairwise (fun a b => b.score ≤ a.score)) :
    (insertDesc x l).Pairwise (fun a b => b.score ≤ a.score) := by
  induction l with
  | nil => simp [insertDesc]
  | cons y ys ih =>
    rw [insertDesc]
    rw [List.pairwise_cons] at h
    by_cases hc : x.score < y.score
    · rw [if_pos hc]
      rw [List.pairwise_cons]
      refine ⟨fun b hb => ?_, ih h.2⟩
      rcases List.mem_cons.mp ((insertDesc_perm x ys).mem_iff.mp hb) with rfl | hbys
      · exact Nat.le_of_lt hc
      · exact h.1 b hbys
    · rw [if_neg hc]
      rw [List.pairwise_cons]
      refine ⟨fun b hb => ?_, List.pairwise_cons.mpr h⟩
      rcases List.mem_cons.mp hb with rfl | hbys
      · exact Nat.le_of_not_lt hc
      · exact Nat.le_trans (h.1 b hbys) (Nat.le_of_not_lt hc)

/-- The sorted output is non-increasing in score. -/
theorem sortByScoreDesc_pairwise (l : List ScoredPaper) :
    (sortByScoreDesc l).Pairwise (fun a b => b.score ≤ a.score) := by
  induction l with
  | nil => simp [sortByScoreDesc]
  | cons x xs ih => exact pairwise_insertDesc ih

/-- Stability of the insertion step: restricted to any one score value,
inserting puts the new element first (it came from further left) and
otherwise changes nothing. -/
theorem filter_insertDesc (x : ScoredPaper) (l : List ScoredPaper) (s : Nat) :
    (insertDesc x l).filter (fun y => y.score == s) =
      if x.score == s then x :: l.filter (fun y => y.score == s)
      else l.filter (fun y => y.score == s) := by
  induction l with
  | nil => simp [insertDesc, List.filter_cons]
  | cons y ys ih =>
    rw [insertDesc]
    by_cases hc : x.score < y.score
    · rw [if_pos hc]
      by_cases hx : x.score = s
      · have hy : (y.score == s) = false := by simp; omega
        simp [List.filter_cons, hy, ih, hx]
      · have hx' : (x.score == s) = false := by simp [hx]
        simp [List.filter_cons, ih, hx']
    · rw [if_neg hc]
      by_cases hx : x.score = s
      · simp [List.filter_cons, hx]
      · have hx' : (x.score == s) = false := by simp [hx]
        simp [List.filter_cons, hx']

/-- Stability of the sort of line 96: the records of any one score appear
in the output in exactly their pre-sort (feed) order. -/
theorem filter_sortByScoreDesc (l : List ScoredPaper) (s : Nat) :
    (sortByScoreDesc l).filter (fun y => y.score == s) =
      l.filter (fun y => y.score == s) := by
  induction l with
  | nil => rfl
  | cons x xs ih =>
    rw [sortByScoreDesc, filter_insertDesc, List.filter_cons]
    by_cases hx : x.score = s
    · simp [hx, ih]
    · have hx' : (x.score == s) = false := by simp [hx]
      simp [hx', ih]

/-- With no duplicate keywords, the loop's count equals the number of
distinct configured keywords present in the text. -/
theorem score_of_eq_card (keywords : List String) (text : String)
    (hnd : keywords.Nodup) :
    score_of keywords text =
      (keywords.toFinset.filter (fun k => strContains text k = true)).card := by
  rw [score_of, ← List.toFinset_card_of_nodup (hnd.filter _), List.toFinset_filter]

/-- If any entry of the list is missing a field, the whole normalization
loop signals the uncaught `AttributeError`. -/
theorem entriesToPapers_eq_none {e : Entry} :
    ∀ {l : List Entry}, e ∈ l → entryToPaper e = none → entriesToPapers l = none := by
  intro l
  induction l with
  | nil => intro h; simp at h
  | cons a rest ih =>
    intro hm hn
    rcases List.mem_cons.mp hm with rfl | hmem
    · simp only [entriesToPapers, hn]
    · cases ha : entryToPaper a with
      | none => simp only [entriesToPapers, ha]
      | some p => simp [entriesToPapers, ha, ih hmem hn]

/-- A successful `filter_papers` run is a successful loop followed by the
sort. -/
theorem filter_papers_ok_elim {keywords : List String} {now window : Int}
    {papers : List Paper} {out : List ScoredPaper}
    (h : filter_papers keywords now window papers = Except.ok out) :
    ∃ srv, surviving keywords (now - window) papers = Except.ok srv ∧
      out = sortByScoreDesc srv := by
  rw [filter_papers] at h
  cases hs : surviving keywords (now - window) papers with
  | error e => rw [hs] at h; exact Except.noConfusion h
  | ok srv =>
    rw [hs] at h
    simp only [Except.map] at h
    injection h with h2
    exact ⟨srv, rfl, h2.symm⟩

/-! ## Claims -/

/-- Claim C1: with an empty configured keyword set, `filter_papers` returns
the empty sequence on every input whose records carry parseable
timezone-aware dates — every date-surviving record scores 0 over the empty
keyword set and is dropped, so no record is ever output. -/
theorem empty_keywords_empty_output (now window : Int) (papers : List Paper)
    (hdates : ∀ p ∈ papers, ∃ t : Int, p.published_date = ParseOutcome.aware t) :
    filter_papers [] now window papers = Except.ok [] := by
  rw [filter_papers, surviving_nil_keywords hdates]
  rfl

/-- Witness for C1 at a concrete non-empty input. -/
theorem empty_keywords_empty_output_check :
    filter_papers [] 0 0 [⟨"Attention Is All You Need", ["V"], ParseOutcome.aware 0,
      "the transformer architecture", "http://arxiv.org/abs/1706.03762"⟩] = Except.ok [] :=
  empty_keywords_empty_output 0 0 _ (fun p hp => by
    rw [List.mem_singleton] at hp
    subst hp
    exact ⟨0, rfl⟩)

/-- Claim C2: with `cutoff = now - window` (the window may encode a
fractional number of days), the recency check keeps a record whose
published date is at or after the cutoff (equality passes, subject to the
keyword check) and drops a record strictly before the cutoff. -/
theorem recency_cutoff_boundary (keywords : List String) (now window : Int)
    (p : Paper) (t : Int) (hp : p.published_date = ParseOutcome.aware t) :
    (t < now - window → filter_papers keywords now window [p] = Except.ok []) ∧
    (now - window ≤ t → 0 < score_of keywords (text_to_check p) →
      filter_papers keywords now window [p] =
        Except.ok [mkScored p (score_of keywords (text_to_check p))]) := by
  constructor
  · intro hlt
    rw [filter_papers]
    simp only [surviving, hp, if_pos hlt]
    rfl
  · intro hge hsc
    rw [filter_papers]
    simp only [surviving, hp]
    rw [if_neg (by omega), if_pos hsc]
    rfl

/-- Witness for C2 with the published date exactly at the cutoff
(`now - window = 1 = t`): the record is retained. -/
theorem recency_cutoff_boundary_check :
    filter_papers ["transformer"] 86400000001 86400000000
      [⟨"Attention", ["V"], ParseOutcome.aware 1, "the transformer", "u"⟩] =
      Except.ok [mkScored ⟨"Attention", ["V"], ParseOutcome.aware 1, "the transformer", "u"⟩
        (score_of ["transformer"]
          (text_to_check ⟨"Attention", ["V"], ParseOutcome.aware 1, "the transformer", "u"⟩))] :=
  (recency_cutoff_boundary ["transformer"] 86400000001 86400000000
    ⟨"Attention", ["V"], ParseOutcome.aware 1, "the transformer", "u"⟩ 1 rfl).2
    (by decide) (by decide)

/-- Claim C3: with a duplicate-free configured keyword list, every output
record's relevance score equals the number of distinct configured keywords
occurring as substrings of the lowercased concatenation of its title, one
space, and its summary — each keyword counts at most once however often it
occurs. -/
theorem score_counts_distinct_keywords (keywords : List String) (now window : Int)
    (papers : List Paper) (out : List ScoredPaper) (hnd : keywords.Nodup)
    (h : filter_papers keywords now window papers = Except.ok out) :
    ∀ sp ∈ out, sp.score =
      (keywords.toFinset.filter
        (fun k => strContains (lowerStr (sp.title ++ " " ++ sp.summary)) k = true)).card := by
  obtain ⟨srv, hs, rfl⟩ := filter_papers_ok_elim h
  intro sp hsp
  obtain ⟨p, _, t, _, _, _, rfl⟩ :=
    mem_of_surviving_ok hs sp ((sortByScoreDesc_perm srv).mem_iff.mp hsp)
  exact score_of_eq_card keywords (text_to_check p) hnd

/-- Witness for C3: "graph" occurs three times in the text but counts
once. -/
theorem score_counts_distinct_keywords_check :
    List.Nodup ["graph"] ∧
    filter_papers ["graph"] 0 0 [pGraph] = Except.ok [mkScored pGraph 1] ∧
    (mkScored pGraph 1).score =
      ((["graph"] : List String).toFinset.filter
        (fun k => strContains (lowerStr ((mkScored pGraph 1).title ++ " " ++
          (mkScored pGraph 1).summary)) k = true)).card :=
  ⟨by decide, by decide,
    score_counts_distinct_keywords ["graph"] 0 0 [pGraph] [mkScored pGraph 1]
      (by decide) (by decide) (mkScored pGraph 1) (by decide)⟩

/-- Claim C4: the output of `filter_papers` is sorted non-increasing by
score, and within any one score value the records appear in exactly their
pre-sort (feed) order — the sort is stable. -/
theorem output_sorted_and_stable (keywords : List String) (now window : Int)
    (papers : List Paper) (srv out : List ScoredPaper)
    (hs : surviving keywords (now - window) papers = Except.ok srv)
    (h : filter_papers keywords now window papers = Except.ok out) :
    out.Pairwise (fun a b => b.score ≤ a.score) ∧
    ∀ s : Nat, out.filter (fun y => y.score == s) = srv.filter (fun y => y.score == s) := by
  obtain ⟨srv2, hs2, rfl⟩ := filter_papers_ok_elim h
  rw [hs] at hs2
  injection hs2 with h2
  subst h2
  exact ⟨sortByScoreDesc_pairwise srv, fun s => filter_sortByScoreDesc srv s⟩

/-- Witness for C4: three score-2 records in feed order X, Y, Z (preceded
by a score-1 record) come out sorted first and in exactly that order. -/
theorem output_sorted_and_stable_check :
    surviving ["a", "b"] (0 - 0) [pW, pX, pY, pZ] = Except.ok [w1, x2, y2, z2] ∧
    filter_papers ["a", "b"] 0 0 [pW, pX, pY, pZ] = Except.ok [x2, y2, z2, w1] ∧
    List.Pairwise (fun a b => b.score ≤ a.score) [x2, y2, z2, w1] ∧
    List.filter (fun y => y.score == 2) [x2, y2, z2, w1] =
      List.filter (fun y => y.score == 2) [w1, x2, y2, z2] :=
  ⟨by decide, by decide,
    (output_sorted_and_stable ["a", "b"] 0 0 [pW, pX, pY, pZ] [w1, x2, y2, z2]
      [x2, y2, z2, w1] (by decide) (by decide)).1,
    (output_sorted_and_stable ["a", "b"] 0 0 [pW, pX, pY, pZ] [w1, x2, y2, z2]
      [x2, y2, z2, w1] (by decide) (by decide)).2 2⟩

/-- Claim C5: every output record of `filter_papers` is one of the input
records (identified by URL — nothing is fabricated) and carries a
relevance score of at least 1. -/
theorem output_subset_with_positive_score (keywords : List String) (now window : Int)
    (papers : List Paper) (out : List ScoredPaper)
    (h : filter_papers keywords now window papers = Except.ok out) :
    ∀ sp ∈ out, (∃ p ∈ papers, sp.paper_url = p.paper_url) ∧ 1 ≤ sp.score := by
  obtain ⟨srv, hs, rfl⟩ := filter_papers_ok_elim h
  intro sp hsp
  obtain ⟨p, hp, t, _, _, hsc, rfl⟩ :=
    mem_of_surviving_ok hs sp ((sortByScoreDesc_perm srv).mem_iff.mp hsp)
  exact ⟨⟨p, hp, rfl⟩, hsc⟩

/-- Witness for C5 at a concrete run. -/
theorem output_subset_with_positive_score_check :
    filter_papers ["graph"] 0 0 [pGraph] = Except.ok [mkScored pGraph 1] ∧
    ((∃ p ∈ [pGraph], (mkScored pGraph 1).paper_url = p.paper_url) ∧
      1 ≤ (mkScored pGraph 1).score) :=
  ⟨by decide,
    output_subset_with_positive_score ["graph"] 0 0 [pGraph] [mkScored pGraph 1]
      (by decide) (mkScored pGraph 1) (by decide)⟩

/-- Claim C6 counterexample: not every non-success HTTP status yields a
failure signal.  A 304 response is outside the 400–599 range in which
`raise_for_status` raises, so the fetch proceeds, parses the (empty) body
and returns a successful result with zero records — exactly the outcome
the claim says never happens. -/
theorem status_304_yields_empty_success :
    fetch_arxiv_papers (HttpOutcome.resp 304 ⟨false, []⟩) = FetchResult.ok [] ∧
    decide (FetchResult.ok ([] : List FetchedPaper) = FetchResult.noneResult) = false :=
  ⟨rfl, rfl⟩

/-- Claim C6 as amended: a network-level failure, or an HTTP status in the
400–599 range in which `raise_for_status` raises (in particular 503),
makes `fetch_arxiv_papers` return its failure signal (`None`), which is
distinguishable from a successful result with zero records; non-success
statuses outside that range are not surfaced as failures. -/
theorem error_status_yields_failure_signal (status : Nat) (feed : Feed)
    (h4 : 400 ≤ status) (h6 : status < 600) :
    fetch_arxiv_papers (HttpOutcome.resp status feed) = FetchResult.noneResult ∧
    fetch_arxiv_papers HttpOutcome.reqError = FetchResult.noneResult ∧
    decide (FetchResult.noneResult = FetchResult.ok []) = false := by
  refine ⟨?_, rfl, rfl⟩
  simp only [fetch_arxiv_papers]
  rw [if_pos ⟨h4, h6⟩]

/-- Witness for the amended C6 at the claim's own status 503. -/
theorem error_status_yields_failure_signal_check :
    (400 : Nat) ≤ 503 ∧ (503 : Nat) < 600 ∧
    (fetch_arxiv_papers (HttpOutcome.resp 503 ⟨false, []⟩) = FetchResult.noneResult ∧
      fetch_arxiv_papers HttpOutcome.reqError = FetchResult.noneResult ∧
      decide (FetchResult.noneResult = FetchResult.ok []) = false) :=
  ⟨by decide, by decide,
    error_status_yields_failure_signal 503 ⟨false, []⟩ (by decide) (by decide)⟩

/-- Claim C7 counterexample: a response whose body is not well-formed feed
data (`bozo` feed, no salvageable entries) is not surfaced as any failure —
`fetch_arxiv_papers` returns a successful result with zero records,
indistinguishable from "nothing published". -/
theorem malformed_body_silently_empty :
    fetch_arxiv_papers (HttpOutcome.resp 200 ⟨true, []⟩) = FetchResult.ok [] ∧
    decide (FetchResult.ok ([] : List FetchedPaper) = FetchResult.noneResult) = false :=
  ⟨rfl, rfl⟩

/-- Claim C7 as amended: a response body that is not well-formed feed data
is parsed tolerantly (`feedparser` never raises); with a success status the
fetch returns an empty success list rather than any parse-failure
signal. -/
theorem malformed_body_yields_empty_success (status : Nat) (hs : status < 400) :
    fetch_arxiv_papers (HttpOutcome.resp status ⟨true, []⟩) = FetchResult.ok [] := by
  simp only [fetch_arxiv_papers]
  rw [if_neg (by omega)]
  rfl

/-- Witness for the amended C7 at status 200. -/
theorem malformed_body_yields_empty_success_check :
    (200 : Nat) < 400 ∧
    fetch_arxiv_papers (HttpOutcome.resp 200 ⟨true, []⟩) = FetchResult.ok [] :=
  ⟨by decide, malformed_body_yields_empty_success 200 (by decide)⟩

/-- Claim C8 counterexample: with a well-formed feed containing a good
entry followed by an entry lacking a title, the fetch does not skip the bad
entry and return the rest — the uncaught `AttributeError` aborts the whole
fetch. -/
theorem missing_title_aborts_fetch_concrete :
    fetch_arxiv_papers (HttpOutcome.resp 200
      ⟨false, [⟨some "Good", some ["Ann"], some "2025-01-01T00:00:00Z", some "S", some "http://g"⟩,
               ⟨none, some [], some "2025-01-02T00:00:00Z", some "S2", some "http://b"⟩]⟩) =
      FetchResult.uncaught ∧
    decide (FetchResult.uncaught =
      FetchResult.ok [⟨"Good", ["Ann"], "2025-01-01T00:00:00Z", "S", "http://g"⟩]) = false :=
  ⟨rfl, rfl⟩

/-- Claim C8 as amended: an entry that cannot be minimally parsed (a
missing title, authors, published, summary or link field) aborts the whole
fetch with an uncaught error; no entries are returned and nothing is
skipped. -/
theorem missing_field_aborts_whole_fetch (status : Nat) (feed : Feed) (e : Entry)
    (hs : status < 400) (he : e ∈ feed.entries) (hn : entryToPaper e = none) :
    fetch_arxiv_papers (HttpOutcome.resp status feed) = FetchResult.uncaught := by
  simp only [fetch_arxiv_papers]
  rw [if_neg (by omega), entriesToPapers_eq_none he hn]

/-- Witness for the amended C8. -/
theorem missing_field_aborts_whole_fetch_check :
    (200 : Nat) < 400 ∧
    (⟨none, some [], some "d", some "S2", some "http://b"⟩ : Entry) ∈
      (⟨false, [⟨none, some [], some "d", some "S2", some "http://b"⟩]⟩ : Feed).entries ∧
    entryToPaper ⟨none, some [], some "d", some "S2", some "http://b"⟩ = none ∧
    fetch_arxiv_papers (HttpOutcome.resp 200
      ⟨false, [⟨none, some [], some "d", some "S2", some "http://b"⟩]⟩) =
      FetchResult.uncaught :=
  ⟨by decide, by decide, by decide,
    missing_field_aborts_whole_fetch 200
      ⟨false, [⟨none, some [], some "d", some "S2", some "http://b"⟩]⟩
      ⟨none, some [], some "d", some "S2", some "http://b"⟩
      (by decide) (by decide) (by decide)⟩

/-- Claim C9 counterexample: a record whose published date parses to a
naive (timezone-less) instant is not interpreted as UTC — even though the
record is recent and matches the keyword, the filter call fails with the
uncaught `TypeError` from comparing a naive datetime with the aware
cutoff. -/
theorem naive_date_typeerror_concrete :
    filter_papers ["transformer"] 86400000000 86400000000
      [⟨"T", [], ParseOutcome.naive 86400000000, "the transformer", "u"⟩] =
      Except.error PyErr.typeError :=
  rfl

/-- Claim C9 as amended: a naive published date is not interpreted as UTC;
as soon as the filter reaches such a record the comparison with the
timezone-aware cutoff raises `TypeError` and the whole call fails. -/
theorem naive_date_aborts_filter (keywords : List String) (now window t : Int)
    (p : Paper) (rest : List Paper) (hp : p.published_date = ParseOutcome.naive t) :
    filter_papers keywords now window (p :: rest) = Except.error PyErr.typeError := by
  rw [filter_papers]
  simp only [surviving, hp]
  rfl

/-- Witness for the amended C9. -/
theorem naive_date_aborts_filter_check :
    filter_papers ["a"] 1 1 [⟨"a", [], ParseOutcome.naive 0, "a", "u"⟩] =
      Except.error PyErr.typeError :=
  naive_date_aborts_filter ["a"] 1 1 0 ⟨"a", [], ParseOutcome.naive 0, "a", "u"⟩ [] rfl

/-- Claim C10: `filter_papers` copies every retained record's fields
unchanged — its only modification is attaching the relevance score; being
a pure function it modifies neither dropped records nor the input list. -/
theorem output_fields_unchanged (keywords : List String) (now window : Int)
    (papers : List Paper) (out : List ScoredPaper)
    (h : filter_papers keywords now window papers = Except.ok out) :
    ∀ sp ∈ out, ∃ p ∈ papers,
      sp.title = p.title ∧ sp.authors = p.authors ∧
      sp.published_date = p.published_date ∧ sp.summary = p.summary ∧
      sp.paper_url = p.paper_url := by
  obtain ⟨srv, hs, rfl⟩ := filter_papers_ok_elim h
  intro sp hsp
  obtain ⟨p, hp, t, _, _, _, rfl⟩ :=
    mem_of_surviving_ok hs sp ((sortByScoreDesc_perm srv).mem_iff.mp hsp)
  exact ⟨p, hp, rfl, rfl, rfl, rfl, rfl⟩

/-- Witness for C10 at a concrete run. -/
theorem output_fields_unchanged_check :
    filter_papers ["graph"] 0 0 [pGraph] = Except.ok [mkScored pGraph 1] ∧
    (∃ p ∈ [pGraph], (mkScored pGraph 1).title = p.title ∧
      (mkScored pGraph 1).authors = p.authors ∧
      (mkScored pGraph 1).published_date = p.published_date ∧
      (mkScored pGraph 1).summary = p.summary ∧
      (mkScored pGraph 1).paper_url = p.paper_url) :=
  ⟨by decide,
    output_fields_unchanged ["graph"] 0 0 [pGraph] [mkScored pGraph 1]
      (by decide) (mkScored pGraph 1) (by decide)⟩

end PaperPipeline
